import Mathlib

/-!
Shallow embedding of `src/channel_guard.py` (class `ChannelGuard`): the
hysteresis controller and its persisted per-channel state, the HTLC cap
calculator, the poll supervisor's failure counters, and the channel
identifier normalizer. Python floats are modelled as exact rationals and
Python arbitrary-precision integers as `Int`/`Nat`.
-/

namespace ChannelGuard

/-- Persisted per-channel control state, mirroring the dict created in
`get_channel_state`: keys `blocker_active`, `original_fee_ppm`,
`last_htlc_ratio`. -/
structure ChanState where
  blocker_active : Bool
  original_fee_ppm : Option Int
  last_htlc_ratio : Option ℚ
deriving DecidableEq, Repr

/-- The lazily created default state from `get_channel_state`:
`blocker_active = False`, `original_fee_ppm = None`, `last_htlc_ratio = None`. -/
def get_channel_state : ChanState :=
  { blocker_active := false, original_fee_ppm := none, last_htlc_ratio := none }

/-- Constructor arguments of `ChannelGuard` that the control loop reads. -/
structure Config where
  lower_threshold : ℚ
  upper_threshold : ℚ
  liquidity_floor : ℚ
  blocker_ppm : Int
  htlc_change_threshold : ℚ
deriving DecidableEq, Repr

/-- One successful poll's observation, as computed at the top of the loop
body in `run`: `perc = local_balance / capacity` (0 when capacity is 0),
`current_ppm` from our policy, `current_htlc_max` (0 msat normalized to
capacity), and `desired_htlc_max = calculate_htlc_max(...)`. -/
structure Obs where
  perc : ℚ
  current_ppm : Int
  current_htlc_max : Int
  desired_htlc_max : Int
deriving DecidableEq, Repr

/-- Observable side effects of one loop iteration, in program order:
`save_state()` calls (with the state they persist), `update_channel_policy`
calls (with the fee rate and HTLC max they send), and the warning printed
when `original_fee_ppm` is missing on blocker removal. -/
inductive Event where
  | saveState (s : ChanState)
  | policyUpdate (fee_rate_ppm : Int) (htlc_max : Int)
  | warnNoOriginalFee
deriving DecidableEq, Repr

/-- Whether an event is a remote `update_channel_policy` call. -/
def Event.isPolicyUpdate : Event → Bool
  | .policyUpdate _ _ => true
  | _ => false

/-- Truncation toward zero of a rational, modelling Python `int()` applied
to a numeric value. -/
def pyTrunc (q : ℚ) : Int :=
  q.num.tdiv q.den

/-- `calculate_htlc_max` from the source:
`floor_amount = int(capacity * self.liquidity_floor)`,
`available = local_balance - floor_amount`,
`return max(1, min(available, local_balance))`. -/
def calculate_htlc_max (liquidity_floor : ℚ) (local_balance capacity : Int) : Int :=
  let floor_amount := pyTrunc (capacity * liquidity_floor)
  let available := local_balance - floor_amount
  max 1 (min available local_balance)

/-- One iteration of the hysteresis logic in `run` (lines 237-305) on a
successful poll: returns the updated channel state and the list of side
effects in program order. -/
def step (cfg : Config) (st : ChanState) (o : Obs) : ChanState × List Event :=
  if o.perc < cfg.lower_threshold ∧ st.blocker_active = false then
    -- Apply blocker fee - store current fee first
    let s1 : ChanState :=
      { st with original_fee_ppm := some o.current_ppm, blocker_active := true }
    let s2 : ChanState := { s1 with last_htlc_ratio := some o.perc }
    (s2, [Event.saveState s1,
          Event.policyUpdate cfg.blocker_ppm o.desired_htlc_max,
          Event.saveState s2])
  else if o.perc > cfg.upper_threshold ∧ st.blocker_active = true then
    -- Remove blocker fee - restore original
    let original_fee := st.original_fee_ppm.getD o.current_ppm
    let warn : List Event :=
      if st.original_fee_ppm = none then [Event.warnNoOriginalFee] else []
    let s1 : ChanState := { st with blocker_active := false, original_fee_ppm := none }
    let s2 : ChanState := { s1 with last_htlc_ratio := some o.perc }
    (s2, warn ++ [Event.saveState s1,
                  Event.policyUpdate original_fee o.desired_htlc_max,
                  Event.saveState s2])
  else
    -- Check if we should update HTLC max based on ratio change
    let should_update_htlc : Bool :=
      match st.last_htlc_ratio with
      | none => true
      | some r => decide (|o.perc - r| ≥ cfg.htlc_change_threshold)
    if should_update_htlc = true ∧ o.current_htlc_max ≠ o.desired_htlc_max then
      let s2 : ChanState := { st with last_htlc_ratio := some o.perc }
      (s2, [Event.policyUpdate o.current_ppm o.desired_htlc_max,
            Event.saveState s2])
    else
      (st, [])

/-- Iterated hysteresis steps over a list of observations, returning the
final channel state. -/
def runSteps (cfg : Config) (st : ChanState) : List Obs → ChanState
  | [] => st
  | o :: os => runSteps cfg (step cfg st o).1 os

/-- Invariant tying the two fee fields of the persisted state together:
the blocker is recorded active exactly when an original fee is stored. -/
def feeInvariant (s : ChanState) : Prop :=
  s.blocker_active = true ↔ s.original_fee_ppm ≠ none

/-- Outcome of one poll attempt, as classified by the `try/except` blocks in
`run`: success; a `ValueError` whose message contains
"not found in listchannels"; any other `ValueError` (e.g. a missing policy,
or a malformed numeric field); any other exception (e.g. an `lncli` RPC
failure or JSON decode error raised outside `ValueError`). -/
inductive PollResult where
  | success
  | notFoundError
  | valueErrorOther
  | otherError
deriving DecidableEq, Repr

/-- The two failure counters kept by the poll loop in `run`. -/
structure SupCounters where
  consecutive_errors : Nat
  consecutive_not_found : Nat
deriving DecidableEq, Repr

/-- `max_not_found = 3` in `run`. -/
def max_not_found : Nat := 3

/-- `max_consecutive_errors = 5` in `run`. -/
def max_consecutive_errors : Nat := 5

/-- Counter bookkeeping of one iteration of the poll loop in `run`:
the updated counters and whether the loop `break`s (terminates) on this
result. On success both counters reset; a not-found `ValueError` increments
`consecutive_not_found` and breaks at `max_not_found`; any other
`ValueError` touches neither counter and never breaks; any other exception
increments `consecutive_errors` and breaks at `max_consecutive_errors`. -/
def supervisorStep (c : SupCounters) : PollResult → SupCounters × Bool
  | .success => ({ consecutive_errors := 0, consecutive_not_found := 0 }, false)
  | .notFoundError =>
    let c' := { c with consecutive_not_found := c.consecutive_not_found + 1 }
    (c', decide (c'.consecutive_not_found ≥ max_not_found))
  | .valueErrorOther => (c, false)
  | .otherError =>
    let c' := { c with consecutive_errors := c.consecutive_errors + 1 }
    (c', decide (c'.consecutive_errors ≥ max_consecutive_errors))

/-- Run the poll supervisor over a list of poll results, stopping early when
an iteration breaks; returns the final counters and whether the loop
terminated by exhausting a failure budget. -/
def supRun (c : SupCounters) : List PollResult → SupCounters × Bool
  | [] => (c, false)
  | r :: rs =>
    let (c', exited) := supervisorStep c r
    if exited then (c', true) else supRun c' rs

/-- Decimal digit character, modelling how Python `str` renders one digit. -/
def digitCh (d : Nat) : Char := Char.ofNat (48 + d)

/-- Decimal rendering of a natural number, modelling Python `str` on a
non-negative `int`. -/
def natStr (n : Nat) : List Char :=
  if n < 10 then [digitCh n]
  else natStr (n / 10) ++ [digitCh (n % 10)]
termination_by n
decreasing_by exact Nat.div_lt_self (by omega) (by omega)

/-- Decimal rendering of an integer, modelling Python `str` on an `int`. -/
def pyStr (n : Int) : List Char :=
  if n < 0 then '-' :: natStr (-n).toNat else natStr n.toNat

/-- Value of a decimal digit character, `none` on a non-digit. -/
def digitVal (c : Char) : Option Nat :=
  if '0' ≤ c ∧ c ≤ '9' then some (c.toNat - 48) else none

/-- Accumulating decimal parse of a run of digit characters; `none` as soon
as a non-digit appears. -/
def parseNatAux (acc : Nat) : List Char → Option Nat
  | [] => some acc
  | c :: cs =>
    match digitVal c with
    | some d => parseNatAux (10 * acc + d) cs
    | none => none

/-- Decimal parse of a non-empty all-digit string. -/
def parseNatDigits : List Char → Option Nat
  | [] => none
  | c :: cs =>
    match digitVal c with
    | some d => parseNatAux d cs
    | none => none

/-- Model of Python `int(s)` on a decimal string: an optional sign followed
by at least one digit; `none` where Python raises `ValueError`. -/
def pyInt (s : List Char) : Option Int :=
  match s with
  | [] => none
  | c :: cs =>
    if c = '-' then (parseNatDigits cs).map (fun n => -(n : Int))
    else if c = '+' then (parseNatDigits cs).map (fun n => (n : Int))
    else (parseNatDigits (c :: cs)).map (fun n => (n : Int))

/-- Model of Python `chan_id.split('x')`: split a character list on every
occurrence of `'x'`. -/
def splitOnX : List Char → List (List Char)
  | [] => [[]]
  | c :: cs =>
    if c = 'x' then [] :: splitOnX cs
    else
      match splitOnX cs with
      | [] => [[c]]
      | p :: ps => (c :: p) :: ps

/-- The SCID composition `(block << 40) | (tx << 16) | out` from
`parse_chan_id`, on Python (arbitrary-precision signed) integers. -/
def composeScid (block tx out : Int) : Int :=
  Int.lor (Int.lor (block <<< (40 : Int)) (tx <<< (16 : Int))) out

/-- `parse_chan_id` from the source: a string containing `'x'` must split
into exactly 3 integer parts, composed into a compact numeric SCID rendered
in decimal; otherwise the string itself must parse as an integer and is
returned unchanged. `none` models the `sys.exit` error paths. -/
def parse_chan_id (s : List Char) : Option (List Char) :=
  if s.contains 'x' then
    match splitOnX s with
    | [p1, p2, p3] =>
      match pyInt p1, pyInt p2, pyInt p3 with
      | some block, some tx, some out => some (pyStr (composeScid block tx out))
      | _, _, _ => none
    | _ => none
  else
    match pyInt s with
    | some _ => some s
    | none => none

/-! Helper lemmas characterizing one hysteresis step, one per branch of the
`if`/`elif`/`else` in `run`. -/

lemma step_normal_to_blocked (cfg : Config) (st : ChanState) (o : Obs)
    (h1 : o.perc < cfg.lower_threshold) (h2 : st.blocker_active = false) :
    step cfg st o =
      (⟨true, some o.current_ppm, some o.perc⟩,
       [Event.saveState ⟨true, some o.current_ppm, st.last_htlc_ratio⟩,
        Event.policyUpdate cfg.blocker_ppm o.desired_htlc_max,
        Event.saveState ⟨true, some o.current_ppm, some o.perc⟩]) := by
  simp [step, h1, h2]

lemma step_blocked_to_normal_some (cfg : Config) (st : ChanState) (o : Obs) (f : Int)
    (h1 : o.perc > cfg.upper_threshold) (h2 : st.blocker_active = true)
    (h3 : st.original_fee_ppm = some f) :
    step cfg st o =
      (⟨false, none, some o.perc⟩,
       [Event.saveState ⟨false, none, st.last_htlc_ratio⟩,
        Event.policyUpdate f o.desired_htlc_max,
        Event.saveState ⟨false, none, some o.perc⟩]) := by
  simp [step, h1, h2, h3]

lemma step_blocked_to_normal_none (cfg : Config) (st : ChanState) (o : Obs)
    (h1 : o.perc > cfg.upper_threshold) (h2 : st.blocker_active = true)
    (h3 : st.original_fee_ppm = none) :
    step cfg st o =
      (⟨false, none, some o.perc⟩,
       [Event.warnNoOriginalFee,
        Event.saveState ⟨false, none, st.last_htlc_ratio⟩,
        Event.policyUpdate o.current_ppm o.desired_htlc_max,
        Event.saveState ⟨false, none, some o.perc⟩]) := by
  simp [step, h1, h2, h3]

lemma step_self_loop (cfg : Config) (st : ChanState) (o : Obs)
    (h1 : ¬(o.perc < cfg.lower_threshold ∧ st.blocker_active = false))
    (h2 : ¬(o.perc > cfg.upper_threshold ∧ st.blocker_active = true)) :
    step cfg st o =
      (if (match st.last_htlc_ratio with
           | none => true
           | some r => decide (|o.perc - r| ≥ cfg.htlc_change_threshold)) = true
          ∧ o.current_htlc_max ≠ o.desired_htlc_max then
        ({ st with last_htlc_ratio := some o.perc },
         [Event.policyUpdate o.current_ppm o.desired_htlc_max,
          Event.saveState { st with last_htlc_ratio := some o.perc }])
      else (st, [])) := by
  simp only [step, if_neg h1, if_neg h2]

lemma step_blocker_active (cfg : Config) (st : ChanState) (o : Obs) :
    (step cfg st o).1.blocker_active =
      if o.perc < cfg.lower_threshold ∧ st.blocker_active = false then true
      else if o.perc > cfg.upper_threshold ∧ st.blocker_active = true then false
      else st.blocker_active := by
  by_cases h1 : o.perc < cfg.lower_threshold ∧ st.blocker_active = false
  · rw [step_normal_to_blocked cfg st o h1.1 h1.2, if_pos h1]
  · by_cases h2 : o.perc > cfg.upper_threshold ∧ st.blocker_active = true
    · cases h3 : st.original_fee_ppm with
      | none => rw [step_blocked_to_normal_none cfg st o h2.1 h2.2 h3, if_neg h1, if_pos h2]
      | some f => rw [step_blocked_to_normal_some cfg st o f h2.1 h2.2 h3, if_neg h1, if_pos h2]
    · rw [step_self_loop cfg st o h1 h2, if_neg h1, if_neg h2]
      split <;> rfl

lemma step_keeps_normal (cfg : Config) (st : ChanState) (o : Obs)
    (ha : st.blocker_active = false) (hb : ¬ o.perc < cfg.lower_threshold) :
    (step cfg st o).1.blocker_active = false := by
  rw [step_blocker_active, if_neg (fun hc => hb hc.1),
    if_neg (fun hc => by rw [ha] at hc; exact absurd hc.2 (by simp))]
  exact ha

/-- C1: the hysteresis controller leaves Normal exactly when
`perc < lower_threshold`, leaves Blocked exactly when
`perc > upper_threshold`, and makes no fee transition inside the dead band
`lower_threshold ≤ perc ≤ upper_threshold`; with thresholds 0.3/0.4 and
starting in Normal, the ratio sequence 0.35, 0.32, 0.35 never reaches
Blocked. -/
theorem hysteresis_dead_band (cfg : Config) (st : ChanState) (o : Obs) :
    (st.blocker_active = false →
      ((step cfg st o).1.blocker_active = true ↔ o.perc < cfg.lower_threshold))
    ∧ (st.blocker_active = true →
      ((step cfg st o).1.blocker_active = false ↔ o.perc > cfg.upper_threshold))
    ∧ (cfg.lower_threshold ≤ o.perc → o.perc ≤ cfg.upper_threshold →
      (step cfg st o).1.blocker_active = st.blocker_active)
    ∧ (∀ o1 o2 o3 : Obs,
      cfg.lower_threshold = 3/10 → cfg.upper_threshold = 2/5 →
      o1.perc = 7/20 → o2.perc = 8/25 → o3.perc = 7/20 →
      (step cfg get_channel_state o1).1.blocker_active = false
      ∧ (step cfg (step cfg get_channel_state o1).1 o2).1.blocker_active = false
      ∧ (step cfg (step cfg (step cfg get_channel_state o1).1 o2).1 o3).1.blocker_active
          = false) := by
  refine ⟨?_, ?_, ?_, ?_⟩
  · intro h
    rw [step_blocker_active]
    by_cases hp : o.perc < cfg.lower_threshold
    · rw [if_pos ⟨hp, h⟩]
      simp [hp]
    · rw [if_neg (fun hc => hp hc.1),
        if_neg (fun hc => by rw [h] at hc; exact absurd hc.2 (by simp))]
      simp [h, hp]
  · intro h
    rw [step_blocker_active,
      if_neg (fun hc => by rw [h] at hc; exact absurd hc.2 (by simp))]
    by_cases hp : o.perc > cfg.upper_threshold
    · rw [if_pos ⟨hp, h⟩]
      simp [hp]
    · rw [if_neg (fun hc => hp hc.1), h]
      simp [hp]
  · intro hl hu
    rw [step_blocker_active, if_neg (fun hc => absurd hc.1 (not_lt.mpr hl)),
      if_neg (fun hc => absurd hc.1 (not_lt.mpr hu))]
  · intro o1 o2 o3 hcl hcu h1 h2 h3
    have k1 : (step cfg get_channel_state o1).1.blocker_active = false :=
      step_keeps_normal cfg _ o1 rfl (by rw [h1, hcl]; norm_num)
    have k2 := step_keeps_normal cfg _ o2 k1 (by rw [h2, hcl]; norm_num)
    have k3 := step_keeps_normal cfg _ o3 k2 (by rw [h3, hcl]; norm_num)
    exact ⟨k1, k2, k3⟩

/-- Witness for `hysteresis_dead_band` at a concrete configuration,
state and observation. -/
theorem hysteresis_dead_band_witness :
    ((⟨false, none, none⟩ : ChanState).blocker_active = false
      ∧ ((1 : ℚ)/5 < 3/10))
    ∧ (((step ⟨3/10, 2/5, 7/20, 17000, 1/100⟩ ⟨false, none, none⟩
          ⟨1/5, 100, 0, 7⟩).1.blocker_active = true ↔ (1 : ℚ)/5 < 3/10)) :=
  ⟨⟨rfl, by norm_num⟩,
    (hysteresis_dead_band ⟨3/10, 2/5, 7/20, 17000, 1/100⟩ ⟨false, none, none⟩
      ⟨1/5, 100, 0, 7⟩).1 rfl⟩

/-- C2: entering Blocked stores the pre-transition fee as
`original_fee_ppm`; exiting Blocked with a stored fee emits a policy update
carrying exactly that fee; concretely, from Normal with fee 100 at
perc 0.2 the state becomes Blocked with stored fee 100, and a later poll at
perc 0.5 restores fee 100. -/
theorem blocker_fee_store_restore :
    (∀ (cfg : Config) (st : ChanState) (o : Obs),
      st.blocker_active = false → o.perc < cfg.lower_threshold →
        (step cfg st o).1.blocker_active = true
        ∧ (step cfg st o).1.original_fee_ppm = some o.current_ppm)
    ∧ (∀ (cfg : Config) (st : ChanState) (o : Obs) (f : Int),
      st.blocker_active = true → st.original_fee_ppm = some f →
      o.perc > cfg.upper_threshold →
        (step cfg st o).1.blocker_active = false
        ∧ Event.policyUpdate f o.desired_htlc_max ∈ (step cfg st o).2)
    ∧ (∀ (cfg : Config) (o1 o2 : Obs),
      cfg.lower_threshold = 3/10 → cfg.upper_threshold = 2/5 →
      o1.perc = 1/5 → o1.current_ppm = 100 → o2.perc = 1/2 →
        (step cfg get_channel_state o1).1 = ⟨true, some 100, some (1/5)⟩
        ∧ Event.policyUpdate 100 o2.desired_htlc_max
            ∈ (step cfg ⟨true, some 100, some (1/5)⟩ o2).2
        ∧ (step cfg ⟨true, some 100, some (1/5)⟩ o2).1.blocker_active = false) := by
  refine ⟨?_, ?_, ?_⟩
  · intro cfg st o h1 h2
    rw [step_normal_to_blocked cfg st o h2 h1]
    exact ⟨rfl, rfl⟩
  · intro cfg st o f h1 h2 h3
    rw [step_blocked_to_normal_some cfg st o f h3 h1 h2]
    exact ⟨rfl, by simp⟩
  · intro cfg o1 o2 hcl hcu h1 h2 h3
    have e1 : (step cfg get_channel_state o1).1 = ⟨true, some 100, some (1/5)⟩ := by
      rw [step_normal_to_blocked cfg get_channel_state o1 (by rw [h1, hcl]; norm_num) rfl,
        h1, h2]
    have e2 := step_blocked_to_normal_some cfg ⟨true, some 100, some (1/5)⟩ o2 100
      (by rw [h3, hcu]; norm_num) rfl rfl
    rw [e2]
    exact ⟨e1, by simp, rfl⟩

/-- Witness for `blocker_fee_store_restore` at a concrete configuration and
observations. -/
theorem blocker_fee_store_restore_witness :
    (((3 : ℚ)/10 = 3/10) ∧ ((2 : ℚ)/5 = 2/5)
      ∧ ((1 : ℚ)/5 = 1/5) ∧ ((100 : Int) = 100) ∧ ((1 : ℚ)/2 = 1/2))
    ∧ ((step ⟨3/10, 2/5, 7/20, 17000, 1/100⟩ get_channel_state
          ⟨1/5, 100, 0, 7⟩).1 = ⟨true, some 100, some (1/5)⟩
      ∧ Event.policyUpdate 100 (9 : Int)
          ∈ (step ⟨3/10, 2/5, 7/20, 17000, 1/100⟩ ⟨true, some 100, some (1/5)⟩
              ⟨1/2, 17000, 7, 9⟩).2
      ∧ (step ⟨3/10, 2/5, 7/20, 17000, 1/100⟩ ⟨true, some 100, some (1/5)⟩
          ⟨1/2, 17000, 7, 9⟩).1.blocker_active = false) :=
  ⟨⟨rfl, rfl, rfl, rfl, rfl⟩,
    blocker_fee_store_restore.2.2 ⟨3/10, 2/5, 7/20, 17000, 1/100⟩
      ⟨1/5, 100, 0, 7⟩ ⟨1/2, 17000, 7, 9⟩ rfl rfl rfl rfl rfl⟩

/-- C3 counterexample: at capacity 1, local balance 0 (which satisfies
`c > 0` and `0 ≤ b ≤ c`) and liquidity floor 0.35, `calculate_htlc_max`
returns 1, which is not in the interval `[1, 0]`: the claimed upper bound
`result ≤ local_balance` fails at balance 0. -/
theorem htlc_cap_zero_balance_counterexample :
    (0 : Int) < 1 ∧ (0 : Int) ≤ 0 ∧ (0 : Int) ≤ 1
    ∧ calculate_htlc_max (7/20 : ℚ) 0 1 = 1
    ∧ ¬(calculate_htlc_max (7/20 : ℚ) 0 1 ≤ 0) := by
  refine ⟨by norm_num, le_refl 0, by norm_num, ?_, ?_⟩ <;>
    norm_num [calculate_htlc_max, pyTrunc]

/-- C3 amended: for every liquidity floor and all capacities `c > 0` and
local balances `b` with `1 ≤ b ≤ c`, `calculate_htlc_max` returns a value
in `[1, b]` (when `b = 0` it returns 1, which exceeds `b`). -/
theorem htlc_cap_bounds_amended (lf : ℚ) (b c : Int)
    (hc : 0 < c) (hb1 : 1 ≤ b) (hbc : b ≤ c) :
    1 ≤ calculate_htlc_max lf b c ∧ calculate_htlc_max lf b c ≤ b := by
  unfold calculate_htlc_max
  exact ⟨le_max_left _ _, max_le hb1 (min_le_right _ _)⟩

/-- Witness for `htlc_cap_bounds_amended` at floor 0.35, balance 800000,
capacity 1000000. -/
theorem htlc_cap_bounds_amended_witness :
    ((0 : Int) < 1000000 ∧ (1 : Int) ≤ 800000 ∧ (800000 : Int) ≤ 1000000)
    ∧ (1 ≤ calculate_htlc_max (7/20 : ℚ) 800000 1000000
       ∧ calculate_htlc_max (7/20 : ℚ) 800000 1000000 ≤ 800000) :=
  ⟨⟨by norm_num, by norm_num, by norm_num⟩,
    htlc_cap_bounds_amended (7/20) 800000 1000000 (by norm_num) (by norm_num)
      (by norm_num)⟩

/-- C5 counterexample: five consecutive poll failures of the
other-`ValueError` kind (a failure other than not-found, e.g. a malformed
numeric field) do not terminate the loop and leave both counters at zero,
contradicting the claim that any five consecutive non-not-found failures
terminate it. -/
theorem supervisor_transient_value_error_counterexample :
    (supRun ⟨0, 0⟩ (List.replicate 5 PollResult.valueErrorOther)).2 = false
    ∧ (supRun ⟨0, 0⟩ (List.replicate 5 PollResult.valueErrorOther)).1 = ⟨0, 0⟩ := by
  exact ⟨rfl, rfl⟩

/-- C5 amended: a successful poll resets both counters; a not-found failure
increments only the not-found counter and terminates exactly when it
reaches 3; a `ValueError` other than not-found touches neither counter and
never terminates; any other failure increments only the error counter and
terminates exactly when it reaches 5; from fresh counters, two not-found
failures do not terminate while three do, and four other-exception failures
do not terminate while five do. -/
theorem supervisor_exit_characterization (c : SupCounters) :
    supervisorStep c PollResult.success = (⟨0, 0⟩, false)
    ∧ supervisorStep c PollResult.valueErrorOther = (c, false)
    ∧ supervisorStep c PollResult.notFoundError
        = (⟨c.consecutive_errors, c.consecutive_not_found + 1⟩,
           decide (c.consecutive_not_found + 1 ≥ max_not_found))
    ∧ supervisorStep c PollResult.otherError
        = (⟨c.consecutive_errors + 1, c.consecutive_not_found⟩,
           decide (c.consecutive_errors + 1 ≥ max_consecutive_errors))
    ∧ (supRun ⟨0, 0⟩ (List.replicate 2 PollResult.notFoundError)).2 = false
    ∧ (supRun ⟨0, 0⟩ (List.replicate 3 PollResult.notFoundError)).2 = true
    ∧ (supRun ⟨0, 0⟩ (List.replicate 4 PollResult.otherError)).2 = false
    ∧ (supRun ⟨0, 0⟩ (List.replicate 5 PollResult.otherError)).2 = true :=
  ⟨rfl, rfl, rfl, rfl, rfl, rfl, rfl, rfl⟩

/-- C6: on the Normal-to-Blocked transition the trace of side effects is a
`save_state` persisting `blocker_active = true` and the pre-transition fee,
then the remote policy update, then the ratio persist; in particular every
effect before the first remote update is that persist, so a failing update
leaves the original fee recorded. -/
theorem persist_before_update (cfg : Config) (st : ChanState) (o : Obs)
    (h1 : st.blocker_active = false) (h2 : o.perc < cfg.lower_threshold) :
    ∃ s1 s2 : ChanState,
      s1.blocker_active = true ∧ s1.original_fee_ppm = some o.current_ppm
      ∧ (step cfg st o).2
          = [Event.saveState s1,
             Event.policyUpdate cfg.blocker_ppm o.desired_htlc_max,
             Event.saveState s2]
      ∧ (step cfg st o).2.takeWhile (fun e => !e.isPolicyUpdate)
          = [Event.saveState s1] := by
  refine ⟨⟨true, some o.current_ppm, st.last_htlc_ratio⟩,
    ⟨true, some o.current_ppm, some o.perc⟩, rfl, rfl, ?_, ?_⟩ <;>
    rw [step_normal_to_blocked cfg st o h2 h1] <;> rfl

/-- Witness for `persist_before_update` at a concrete configuration, state
and observation. -/
theorem persist_before_update_witness :
    ((⟨false, none, none⟩ : ChanState).blocker_active = false
      ∧ ((1 : ℚ)/5 < 3/10))
    ∧ (∃ s1 s2 : ChanState,
      s1.blocker_active = true ∧ s1.original_fee_ppm = some 100
      ∧ (step ⟨3/10, 2/5, 7/20, 17000, 1/100⟩ ⟨false, none, none⟩
          ⟨1/5, 100, 0, 7⟩).2
          = [Event.saveState s1, Event.policyUpdate 17000 7, Event.saveState s2]
      ∧ (step ⟨3/10, 2/5, 7/20, 17000, 1/100⟩ ⟨false, none, none⟩
          ⟨1/5, 100, 0, 7⟩).2.takeWhile (fun e => !e.isPolicyUpdate)
          = [Event.saveState s1]) :=
  ⟨⟨rfl, by norm_num⟩,
    persist_before_update ⟨3/10, 2/5, 7/20, 17000, 1/100⟩ ⟨false, none, none⟩
      ⟨1/5, 100, 0, 7⟩ rfl (by norm_num)⟩

/-- C7: when `original_fee_ppm` is absent on the Blocked-to-Normal
transition, the controller emits the warning, issues the policy update with
the currently observed fee instead, and completes the transition (the step
is total, so no error is raised). -/
theorem missing_original_fee_fallback (cfg : Config) (st : ChanState) (o : Obs)
    (h1 : st.blocker_active = true) (h2 : st.original_fee_ppm = none)
    (h3 : o.perc > cfg.upper_threshold) :
    (step cfg st o).2
      = [Event.warnNoOriginalFee,
         Event.saveState ⟨false, none, st.last_htlc_ratio⟩,
         Event.policyUpdate o.current_ppm o.desired_htlc_max,
         Event.saveState ⟨false, none, some o.perc⟩]
    ∧ (step cfg st o).1 = ⟨false, none, some o.perc⟩ := by
  rw [step_blocked_to_normal_none cfg st o h3 h1 h2]
  exact ⟨rfl, rfl⟩

/-- Witness for `missing_original_fee_fallback` at a concrete configuration,
state and observation. -/
theorem missing_original_fee_fallback_witness :
    ((⟨true, none, some (1/5)⟩ : ChanState).blocker_active = true
      ∧ (⟨true, none, some (1/5)⟩ : ChanState).original_fee_ppm = none
      ∧ ((1 : ℚ)/2 > 2/5))
    ∧ ((step ⟨3/10, 2/5, 7/20, 17000, 1/100⟩ ⟨true, none, some (1/5)⟩
          ⟨1/2, 17000, 7, 9⟩).2
        = [Event.warnNoOriginalFee,
           Event.saveState ⟨false, none, some (1/5)⟩,
           Event.policyUpdate 17000 9,
           Event.saveState ⟨false, none, some (1/2)⟩]
      ∧ (step ⟨3/10, 2/5, 7/20, 17000, 1/100⟩ ⟨true, none, some (1/5)⟩
          ⟨1/2, 17000, 7, 9⟩).1 = ⟨false, none, some (1/2)⟩) :=
  ⟨⟨rfl, rfl, by norm_num⟩,
    missing_original_fee_fallback ⟨3/10, 2/5, 7/20, 17000, 1/100⟩
      ⟨true, none, some (1/5)⟩ ⟨1/2, 17000, 7, 9⟩ rfl rfl (by norm_num)⟩

/-- C9: with capacity 1,000,000 and liquidity floor 0.35,
`calculate_htlc_max` returns 1 at balance 200,000 and 450,000 at balance
800,000. -/
theorem htlc_cap_scenarios :
    calculate_htlc_max (7/20 : ℚ) 200000 1000000 = 1
    ∧ calculate_htlc_max (7/20 : ℚ) 800000 1000000 = 450000 := by
  constructor <;> norm_num [calculate_htlc_max, pyTrunc]

lemma feeInvariant_step (cfg : Config) (st : ChanState) (o : Obs)
    (h : feeInvariant st) : feeInvariant (step cfg st o).1 := by
  by_cases h1 : o.perc < cfg.lower_threshold ∧ st.blocker_active = false
  · rw [step_normal_to_blocked cfg st o h1.1 h1.2]
    simp [feeInvariant]
  · by_cases h2 : o.perc > cfg.upper_threshold ∧ st.blocker_active = true
    · cases h3 : st.original_fee_ppm with
      | none =>
        rw [step_blocked_to_normal_none cfg st o h2.1 h2.2 h3]
        simp [feeInvariant]
      | some f =>
        rw [step_blocked_to_normal_some cfg st o f h2.1 h2.2 h3]
        simp [feeInvariant]
    · rw [step_self_loop cfg st o h1 h2]
      split
      · simpa [feeInvariant] using h
      · exact h

lemma feeInvariant_runSteps (cfg : Config) (os : List Obs) :
    ∀ st : ChanState, feeInvariant st → feeInvariant (runSteps cfg st os) := by
  induction os with
  | nil => intro st h; exact h
  | cons o os ih =>
    intro st h
    exact ih _ (feeInvariant_step cfg st o h)

/-- C10: starting from the lazily created default state, every sequence of
controller steps preserves `blocker_active = true ↔ original_fee_ppm`
present; the Normal-to-Blocked step sets both together and the
Blocked-to-Normal step clears both together. -/
theorem fee_invariant_preserved :
    (∀ (cfg : Config) (os : List Obs),
      feeInvariant (runSteps cfg get_channel_state os))
    ∧ (∀ (cfg : Config) (st : ChanState) (o : Obs),
      st.blocker_active = false → o.perc < cfg.lower_threshold →
        (step cfg st o).1.blocker_active = true
        ∧ (step cfg st o).1.original_fee_ppm = some o.current_ppm)
    ∧ (∀ (cfg : Config) (st : ChanState) (o : Obs),
      st.blocker_active = true → o.perc > cfg.upper_threshold →
        (step cfg st o).1.blocker_active = false
        ∧ (step cfg st o).1.original_fee_ppm = none) := by
  refine ⟨?_, ?_, ?_⟩
  · intro cfg os
    exact feeInvariant_runSteps cfg os get_channel_state (by simp [feeInvariant, get_channel_state])
  · intro cfg st o h1 h2
    rw [step_normal_to_blocked cfg st o h2 h1]
    exact ⟨rfl, rfl⟩
  · intro cfg st o h1 h2
    cases h3 : st.original_fee_ppm with
    | none =>
      rw [step_blocked_to_normal_none cfg st o h2 h1 h3]
      exact ⟨rfl, rfl⟩
    | some f =>
      rw [step_blocked_to_normal_some cfg st o f h2 h1 h3]
      exact ⟨rfl, rfl⟩

/-- C4: when neither fee transition fires, a policy update is issued if and
only if the current HTLC cap differs from the freshly computed desired cap
and either no ratio was ever recorded or the ratio delta reaches
`htlc_change_threshold`; any update issued preserves the current fee; a
delta strictly below the threshold with a recorded ratio issues nothing. -/
theorem htlc_only_update_iff (cfg : Config) (st : ChanState) (o : Obs)
    (h1 : ¬(o.perc < cfg.lower_threshold ∧ st.blocker_active = false))
    (h2 : ¬(o.perc > cfg.upper_threshold ∧ st.blocker_active = true)) :
    ((step cfg st o).2.any Event.isPolicyUpdate = true ↔
      (o.current_htlc_max ≠ o.desired_htlc_max
        ∧ (st.last_htlc_ratio = none
           ∨ ∃ r, st.last_htlc_ratio = some r
               ∧ |o.perc - r| ≥ cfg.htlc_change_threshold)))
    ∧ (∀ f h, Event.policyUpdate f h ∈ (step cfg st o).2 →
        f = o.current_ppm ∧ h = o.desired_htlc_max)
    ∧ (∀ r, st.last_htlc_ratio = some r →
        |o.perc - r| < cfg.htlc_change_threshold → (step cfg st o).2 = []) := by
  rw [step_self_loop cfg st o h1 h2]
  rcases hr : st.last_htlc_ratio with _ | r
  · by_cases hc : o.current_htlc_max = o.desired_htlc_max
    · simp [hc, Event.isPolicyUpdate]
    · simp [hc, Event.isPolicyUpdate]
  · by_cases hd : |o.perc - r| ≥ cfg.htlc_change_threshold
    · by_cases hc : o.current_htlc_max = o.desired_htlc_max
      · simp [hc, hd, Event.isPolicyUpdate]
      · simp [hc, hd, Event.isPolicyUpdate]
    · simp [hd, Event.isPolicyUpdate, not_le.mp hd]

/-- Witness for `htlc_only_update_iff` at a concrete in-dead-band
observation with a recorded ratio, a large enough delta and differing
caps. -/
theorem htlc_only_update_iff_witness :
    (¬(((7 : ℚ)/20) < 3/10 ∧ (⟨false, none, some (1/5)⟩ : ChanState).blocker_active = false)
      ∧ ¬(((7 : ℚ)/20) > 2/5 ∧ (⟨false, none, some (1/5)⟩ : ChanState).blocker_active = true))
    ∧ (((step ⟨3/10, 2/5, 7/20, 17000, 1/100⟩ ⟨false, none, some (1/5)⟩
          ⟨7/20, 100, 7, 9⟩).2.any Event.isPolicyUpdate = true ↔
        ((7 : Int) ≠ 9
          ∧ ((⟨false, none, some (1/5)⟩ : ChanState).last_htlc_ratio = none
             ∨ ∃ r, (⟨false, none, some (1/5)⟩ : ChanState).last_htlc_ratio = some r
                 ∧ |(7 : ℚ)/20 - r| ≥ 1/100)))
      ∧ (∀ f h, Event.policyUpdate f h
            ∈ (step ⟨3/10, 2/5, 7/20, 17000, 1/100⟩ ⟨false, none, some (1/5)⟩
                ⟨7/20, 100, 7, 9⟩).2 →
          f = 100 ∧ h = 9)
      ∧ (∀ r, (⟨false, none, some (1/5)⟩ : ChanState).last_htlc_ratio = some r →
          |(7 : ℚ)/20 - r| < 1/100 →
          (step ⟨3/10, 2/5, 7/20, 17000, 1/100⟩ ⟨false, none, some (1/5)⟩
            ⟨7/20, 100, 7, 9⟩).2 = [])) :=
  ⟨⟨fun h => absurd h.1 (by norm_num), fun h => absurd h.2 (by simp)⟩,
    htlc_only_update_iff ⟨3/10, 2/5, 7/20, 17000, 1/100⟩ ⟨false, none, some (1/5)⟩
      ⟨7/20, 100, 7, 9⟩ (fun h => absurd h.1 (by norm_num))
      (fun h => absurd h.2 (by simp))⟩

/-- Witness for `fee_invariant_preserved` at a concrete configuration,
state and observation. -/
theorem fee_invariant_preserved_witness :
    ((⟨false, none, none⟩ : ChanState).blocker_active = false
      ∧ ((1 : ℚ)/5 < 3/10))
    ∧ ((step ⟨3/10, 2/5, 7/20, 17000, 1/100⟩ ⟨false, none, none⟩
          ⟨1/5, 100, 0, 7⟩).1.blocker_active = true
      ∧ (step ⟨3/10, 2/5, 7/20, 17000, 1/100⟩ ⟨false, none, none⟩
          ⟨1/5, 100, 0, 7⟩).1.original_fee_ppm = some 100) :=
  ⟨⟨rfl, by norm_num⟩,
    fee_invariant_preserved.2.1 ⟨3/10, 2/5, 7/20, 17000, 1/100⟩
      ⟨false, none, none⟩ ⟨1/5, 100, 0, 7⟩ rfl (by norm_num)⟩

lemma digitCh_facts : ∀ d, d < 10 →
    digitVal (digitCh d) = some d ∧ '0' ≤ digitCh d ∧ digitCh d ≤ '9' := by decide

lemma natStr_mem_digit (n : Nat) : ∀ c ∈ natStr n, '0' ≤ c ∧ c ≤ '9' := by
  induction n using Nat.strong_induction_on with
  | _ n ih =>
    rw [natStr]
    by_cases h : n < 10
    · rw [if_pos h]
      intro c hc
      rcases List.mem_singleton.mp hc with rfl
      exact (digitCh_facts n h).2
    · rw [if_neg h]
      intro c hc
      rcases List.mem_append.mp hc with h1 | h1
      · exact ih (n / 10) (Nat.div_lt_self (by omega) (by omega)) c h1
      · rcases List.mem_singleton.mp h1 with rfl
        exact (digitCh_facts (n % 10) (Nat.mod_lt n (by omega))).2

lemma natStr_ne_nil (n : Nat) : natStr n ≠ [] := by
  rw [natStr]
  by_cases h : n < 10
  · simp [h]
  · simp [h]

lemma parseNatAux_append (acc : Nat) (xs ys : List Char) :
    parseNatAux acc (xs ++ ys)
      = (parseNatAux acc xs).bind (fun a => parseNatAux a ys) := by
  induction xs generalizing acc with
  | nil => rfl
  | cons c cs ih =>
    simp only [List.cons_append, parseNatAux]
    cases h : digitVal c with
    | none => rfl
    | some d => exact ih _

lemma parseNatAux_natStr (n : Nat) :
    ∀ acc, parseNatAux acc (natStr n)
      = some (acc * 10 ^ (natStr n).length + n) := by
  induction n using Nat.strong_induction_on with
  | _ n ih =>
    intro acc
    rw [natStr]
    by_cases h : n < 10
    · rw [if_pos h]
      simp only [parseNatAux, (digitCh_facts n h).1, List.length_singleton]
      congr 1
      omega
    · rw [if_neg h]
      rw [parseNatAux_append, ih (n / 10) (Nat.div_lt_self (by omega) (by omega)) acc]
      simp only [Option.bind_some, Option.some_bind, parseNatAux,
        (digitCh_facts (n % 10) (Nat.mod_lt n (by omega))).1, List.length_append,
        List.length_singleton]
      congr 1
      have hmod : 10 * (n / 10) + n % 10 = n := Nat.div_add_mod n 10
      have hexp : 10 ^ ((natStr (n / 10)).length + 1)
          = 10 ^ (natStr (n / 10)).length * 10 := pow_succ 10 _
      rw [hexp]
      nlinarith [hmod]

lemma parseNatDigits_natStr (n : Nat) : parseNatDigits (natStr n) = some n := by
  obtain ⟨c, cs, hcs⟩ : ∃ c cs, natStr n = c :: cs := by
    cases h : natStr n with
    | nil => exact absurd h (natStr_ne_nil n)
    | cons c cs => exact ⟨c, cs, rfl⟩
  have hd : '0' ≤ c ∧ c ≤ '9' := natStr_mem_digit n c (by rw [hcs]; simp)
  have hdv : digitVal c = some (c.toNat - 48) := by rw [digitVal, if_pos hd]
  have key : parseNatDigits (c :: cs) = parseNatAux 0 (c :: cs) := by
    simp only [parseNatDigits, parseNatAux, hdv]
    norm_num
  rw [hcs, key, ← hcs, parseNatAux_natStr n 0]
  norm_num

lemma pyInt_natStr (n : Nat) : pyInt (natStr n) = some (n : Int) := by
  obtain ⟨c, cs, hcs⟩ : ∃ c cs, natStr n = c :: cs := by
    cases h : natStr n with
    | nil => exact absurd h (natStr_ne_nil n)
    | cons c cs => exact ⟨c, cs, rfl⟩
  have hd : '0' ≤ c ∧ c ≤ '9' := natStr_mem_digit n c (by rw [hcs]; simp)
  have h1 : c ≠ '-' := by
    intro he
    rw [he] at hd
    exact absurd hd.1 (by decide)
  have h2 : c ≠ '+' := by
    intro he
    rw [he] at hd
    exact absurd hd.1 (by decide)
  rw [hcs]
  simp only [pyInt, if_neg h1, if_neg h2]
  rw [← hcs, parseNatDigits_natStr n]
  rfl

lemma natStr_not_x (n : Nat) : ∀ c ∈ natStr n, c ≠ 'x' := by
  intro c hc he
  have hd := natStr_mem_digit n c hc
  rw [he] at hd
  exact absurd hd.2 (by decide)

lemma splitOnX_no_sep (xs : List Char) (h : ∀ c ∈ xs, c ≠ 'x') :
    splitOnX xs = [xs] := by
  induction xs with
  | nil => rfl
  | cons c cs ih =>
    simp only [splitOnX]
    rw [if_neg (h c (by simp)), ih (fun c' hc' => h c' (by simp [hc']))]

lemma splitOnX_sep (xs ys : List Char) (h : ∀ c ∈ xs, c ≠ 'x') :
    splitOnX (xs ++ 'x' :: ys) = xs :: splitOnX ys := by
  induction xs with
  | nil => simp only [List.nil_append, splitOnX, if_pos]
  | cons c cs ih =>
    simp only [List.cons_append, splitOnX]
    rw [if_neg (h c (by simp))]
    simp only [List.append_eq]
    rw [ih (fun c' hc' => h c' (by simp [hc']))]

lemma contains_of_mem (s : List Char) (h : 'x' ∈ s) : s.contains 'x' = true := by
  simp [List.contains, List.elem_iff, h]

lemma not_contains_natStr (n : Nat) : (natStr n).contains 'x' = false := by
  simp only [List.contains]
  rw [Bool.eq_false_iff]
  intro htrue
  have hmem : 'x' ∈ natStr n := by simpa [List.elem_iff] using htrue
  exact natStr_not_x n 'x' hmem rfl

lemma composeScid_natCast (b t o : Nat) :
    composeScid (b : Int) (t : Int) (o : Int)
      = (((b <<< 40) ||| (t <<< 16) ||| o : Nat) : Int) := by
  rw [composeScid]
  have h1 : ((b : Int) <<< (40 : Int)) = ((b <<< 40 : Nat) : Int) := by
    exact_mod_cast Int.shiftLeft_coe_nat b 40
  have h2 : ((t : Int) <<< (16 : Int)) = ((t <<< 16 : Nat) : Int) := by
    exact_mod_cast Int.shiftLeft_coe_nat t 16
  rw [h1, h2]
  rfl

lemma pyStr_natCast (n : Nat) : pyStr (n : Int) = natStr n := by
  rw [pyStr, if_neg (by exact not_lt.mpr (Int.natCast_nonneg n))]
  congr 1

/-- C8: for every non-negative triple within bit-width limits, normalizing
the triplet form `blk x tx x out` returns the decimal string of
`(blk << 40) | (tx << 16) | out`, and normalizing the decimal compact form
of that same value returns it unchanged, so both textual forms normalize to
the same numeric identifier. -/
theorem parse_chan_id_roundtrip (blk tx out : Nat)
    (h1 : blk < 2 ^ 24) (h2 : tx < 2 ^ 24) (h3 : out < 2 ^ 16) :
    parse_chan_id (natStr blk ++ 'x' :: (natStr tx ++ 'x' :: natStr out))
      = some (natStr ((blk <<< 40) ||| (tx <<< 16) ||| out))
    ∧ parse_chan_id (natStr ((blk <<< 40) ||| (tx <<< 16) ||| out))
      = some (natStr ((blk <<< 40) ||| (tx <<< 16) ||| out)) := by
  constructor
  · rw [parse_chan_id,
      if_pos (contains_of_mem _ (by simp)),
      splitOnX_sep _ _ (natStr_not_x blk),
      splitOnX_sep _ _ (natStr_not_x tx),
      splitOnX_no_sep _ (natStr_not_x out)]
    simp only [pyInt_natStr, composeScid_natCast, pyStr_natCast]
  · have hnc : ¬((natStr ((blk <<< 40) ||| (tx <<< 16) ||| out)).contains 'x' = true) := by
      rw [not_contains_natStr]
      exact Bool.false_ne_true
    rw [parse_chan_id, if_neg hnc]
    simp only [pyInt_natStr]

/-- Witness for `parse_chan_id_roundtrip` at the documented example SCID
`902245x1158x1`. -/
theorem parse_chan_id_roundtrip_witness :
    ((902245 : Nat) < 2 ^ 24 ∧ (1158 : Nat) < 2 ^ 24 ∧ (1 : Nat) < 2 ^ 16)
    ∧ (parse_chan_id (natStr 902245 ++ 'x' :: (natStr 1158 ++ 'x' :: natStr 1))
        = some (natStr ((902245 <<< 40) ||| (1158 <<< 16) ||| 1))
      ∧ parse_chan_id (natStr ((902245 <<< 40) ||| (1158 <<< 16) ||| 1))
        = some (natStr ((902245 <<< 40) ||| (1158 <<< 16) ||| 1))) :=
  ⟨⟨by norm_num, by norm_num, by norm_num⟩,
    parse_chan_id_roundtrip 902245 1158 1 (by norm_num) (by norm_num) (by norm_num)⟩

end ChannelGuard
